import Mathlib

/-!
Shallow embedding of the qwsengine scripting core (command model, registry,
dual-syntax script parser, sequential executor) from
`src/qwsengine/scripting/`, together with theorems settling the frozen
claims about it.

Conventions of the embedding:
* Python values appearing in command records are modelled by `Qwse.Value`
  (strings, numbers as rationals, booleans, `None`); a Python dict used as a
  command record is an association list with first-match lookup
  (`Qwse.Record`), mirroring dict lookup for the unique-key dicts the code
  builds.
* Python exceptions raised and caught across the boundaries the source
  defines are modelled with `Except String`; a raised message is the
  `.error` payload.
* Text manipulation (strip, split, lower, tokenizing) is implemented over
  `List Char`, with the same semantics as the Python string methods the
  source calls (ASCII inputs; Python's Unicode-aware variants agree on the
  inputs this program handles).
-/

namespace Qwse

/-- Python `str.isspace` / `str.strip` whitespace test on one character. -/
def pyIsSpace (c : Char) : Bool := c.isWhitespace

/-- Characters of a string with leading and trailing whitespace removed:
Python `str.strip()`. -/
def pyStripChars (l : List Char) : List Char :=
  ((l.dropWhile pyIsSpace).reverse.dropWhile pyIsSpace).reverse

/-- Python `str.strip()`. -/
def pyStrip (s : String) : String := String.mk (pyStripChars s.data)

/-- Strip a given character from both ends, e.g. Python `str.strip('_')`. -/
def stripCharBoth (q : Char → Bool) (l : List Char) : List Char :=
  ((l.dropWhile q).reverse.dropWhile q).reverse

/-- Python `str.split(sep)` for a one-character separator: no collapsing of
adjacent separators, `''.split(sep) == ['']`. -/
def charsSplit (sep : Char) : List Char → List (List Char)
  | [] => [[]]
  | c :: cs =>
    let r := charsSplit sep cs
    if c = sep then [] :: r
    else
      match r with
      | [] => [[c]]
      | h :: t => (c :: h) :: t

/-- Python `str.lower()` (ASCII). -/
def pyLower (s : String) : String := String.mk (s.data.map Char.toLower)

/-- Decimal digits to a natural number. -/
def digitsVal (l : List Char) : Nat :=
  l.foldl (fun a c => a * 10 + (c.toNat - 48)) 0

/-- Model of Python's built-in `float(str)` on the decimal literals this
program feeds it: optional surrounding whitespace, optional sign, digits
with an optional fractional part.  (Exponents, `inf`/`nan` and digit
underscores are accepted by CPython but never produced by this program's
call sites, so they are outside the model.)  `none` models `ValueError`. -/
def parsePyFloat (s : String) : Option ℚ :=
  let l := pyStripChars s.data
  let signNeg : Bool :=
    match l with
    | '-' :: _ => true
    | _ => false
  let l2 :=
    match l with
    | '-' :: r => r
    | '+' :: r => r
    | _ => l
  let intd := l2.takeWhile Char.isDigit
  let rest := l2.dropWhile Char.isDigit
  let mag : Option ℚ :=
    match rest with
    | [] => if intd.isEmpty then none else some ((digitsVal intd : ℚ))
    | '.' :: r =>
      let fracd := r.takeWhile Char.isDigit
      let rest2 := r.dropWhile Char.isDigit
      if rest2.isEmpty && !(intd.isEmpty && fracd.isEmpty) then
        some ((digitsVal (intd ++ fracd) : ℚ) / ((10 : ℚ) ^ fracd.length))
      else none
    | _ => none
  match mag with
  | none => none
  | some q => some (if signNeg then -q else q)

/-- A Python value as it occurs in command records: a string, a number
(int/float collapsed to `ℚ`), a boolean, or `None`. -/
inductive Value where
  | str (s : String)
  | num (q : ℚ)
  | bool (b : Bool)
  | pynone
deriving DecidableEq

/-- Python truthiness (`if x:`) of a `Value`. -/
def Value.truthy : Value → Bool
  | .str s => !s.data.isEmpty
  | .num q => decide (q ≠ 0)
  | .bool b => b
  | .pynone => false

/-- Python `str(x)` as used inside f-string error messages. -/
def Value.pyStr : Value → String
  | .str s => s
  | .num q => toString q
  | .bool b => if b then "True" else "False"
  | .pynone => "None"

/-- A command record: the Python dict `{"command": kind, ...params}`.
The dicts the program builds have unique keys; lookup is first-match. -/
structure Record where
  entries : List (String × Value)
deriving DecidableEq

/-- Dict lookup returning `Option`: `data[k]` presence / `k in data`. -/
def Record.get (r : Record) (k : String) : Option Value :=
  (r.entries.find? (fun p => decide (p.1 = k))).map Prod.snd

/-- Python `data.get(k)`: `None` when the key is absent. -/
def Record.pyGet (r : Record) (k : String) : Value :=
  (r.get k).getD .pynone

/-- Python `data.get(k, default)`: the default only when the key is absent. -/
def Record.getD (r : Record) (k : String) (d : Value) : Value :=
  (r.get k).getD d

/-- Python `float(x)` applied to a record value (as in
`PauseCommand.from_dict`): numbers pass through, booleans coerce, strings
parse, `None` raises `TypeError` (modelled as `none`). -/
def pyFloatV : Value → Option ℚ
  | .num q => some q
  | .bool b => some (if b then 1 else 0)
  | .str s => parsePyFloat s
  | .pynone => none

/-- The command model: one constructor per command class.  `loadURL` and
`saveHTML` store the raw values their `__init__` received (the source stores
whatever the record supplied, subject only to truthiness checks/defaults);
`pause` stores the float seconds; `saveText` stores the sanitized optional
tag and the raw folder value (`Value.pynone` models Python `None`). -/
inductive Command where
  | loadURL (url wait_for_load : Value)
  | pause (seconds : ℚ)
  | saveHTML (filename path : Value)
  | saveText (tag : Option String) (folder : Value)
deriving DecidableEq

/-- Is a character kept by tag sanitization (Python
`c.isalnum() or c == '_'`)? -/
def tagKeep (c : Char) : Bool := c.isAlphanum || decide (c = '_')

/-- The character pipeline of `SaveTextCommand._sanitize_tag`: strip
whitespace, replace spaces with underscores, drop everything that is not
alphanumeric or underscore, strip leading/trailing underscores. -/
def sanitizeChars (l : List Char) : List Char :=
  stripCharBoth (fun c => decide (c = '_'))
    (((pyStripChars l).map (fun c => if c = ' ' then '_' else c)).filter tagKeep)

/-- `SaveTextCommand._sanitize_tag`: `None` models the source's `None`
result (empty input or empty after sanitization). -/
def SaveTextCommand.sanitize_tag (tag : String) : Option String :=
  if tag.data.isEmpty then none
  else
    let t := sanitizeChars tag.data
    if t.isEmpty then none else some (String.mk t)

/-- `%03d` formatting of the millisecond field.  The source computes
`now.microsecond // 1000`, which is below 1000, where `%03d` is exactly
three zero-padded digits. -/
def pad3 (n : Nat) : String :=
  String.mk [Nat.digitChar (n / 100 % 10), Nat.digitChar (n / 10 % 10),
    Nat.digitChar (n % 10)]

/-- `SaveTextCommand._generate_filename`.  The wall-clock reading
(`datetime.now()`) is external; the already-formatted `%Y%m%d%H%M%S`
timestamp and the `microsecond // 1000` value are taken as arguments. -/
def SaveTextCommand.generate_filename (timestamp : String) (milliseconds : Nat)
    (tag : Option String) : String :=
  match tag with
  | some t =>
    if t.data.isEmpty then timestamp ++ "." ++ pad3 milliseconds ++ ".txt"
    else timestamp ++ "." ++ pad3 milliseconds ++ "_" ++ t ++ ".txt"
  | none => timestamp ++ "." ++ pad3 milliseconds ++ ".txt"

/-- The output-folder resolution at the top of `SaveTextCommand.execute`:
the stored folder if truthy, else the settings manager's `save_folder`
(when a settings manager is attached), else `"./output/captures"`.
`settingsGet` models `context.settings_manager.get`. -/
def SaveTextCommand.resolveFolder (folder : Value) (hasSettings : Bool)
    (settingsGet : String → Value → Value) : Value :=
  if !folder.truthy && hasSettings then
    settingsGet "save_folder" (.str "./output/captures")
  else if folder.truthy then folder else .str "./output/captures"

/-- `LoadURLCommand.from_dict` followed by `LoadURLCommand.__init__`
(the constructor's own empty-url check cannot fire after `from_dict`'s). -/
def LoadURLCommand.from_dict (data : Record) : Except String Command :=
  let url := data.pyGet "url"
  if !url.truthy then .error "'url' parameter is required"
  else
    let wait := data.getD "wait_for_load" (.bool true)
    .ok (.loadURL url wait)

/-- `PauseCommand.from_dict` followed by `PauseCommand.__init__`; the
constructor's negative-seconds `ValueError` propagates out of `from_dict`
uncaught, so it surfaces as the same `.error`. -/
def PauseCommand.from_dict (data : Record) : Except String Command :=
  match data.get "seconds" with
  | none => .error "'seconds' parameter is required"
  | some v =>
    match pyFloatV v with
    | none => .error ("'seconds' must be a number, got: " ++ v.pyStr)
    | some secs =>
      if secs < 0 then .error "Seconds must be non-negative"
      else .ok (.pause secs)

/-- `SaveHTMLCommand.from_dict` followed by `SaveHTMLCommand.__init__`
(`filename or "page.html"`, `path or "."`). -/
def SaveHTMLCommand.from_dict (data : Record) : Except String Command :=
  let filename := data.getD "filename" (.str "page.html")
  let path := data.getD "path" (.str ".")
  .ok (.saveHTML (if filename.truthy then filename else .str "page.html")
    (if path.truthy then path else .str "."))

/-- `SaveTextCommand.from_dict` followed by `SaveTextCommand.__init__`
(`self.tag = self._sanitize_tag(tag) if tag else None`; `self.folder`
stores the raw value).  A truthy non-string tag would crash in
`tag.strip()`; the escaping `AttributeError` is modelled as `.error`. -/
def SaveTextCommand.from_dict (data : Record) : Except String Command :=
  let tag := data.pyGet "tag"
  let folder := data.pyGet "folder"
  if tag.truthy then
    match tag with
    | .str s => .ok (.saveText (SaveTextCommand.sanitize_tag s) folder)
    | _ => .error "AttributeError: tag is not a string"
  else .ok (.saveText none folder)

/-- The `to_dict` of each command class.  Note `SaveTextCommand.to_dict`
serializes only `command` and `tag` — the stored `folder` is dropped. -/
def Command.to_dict : Command → Record
  | .loadURL url wait =>
    ⟨[("command", .str "load_url"), ("url", url), ("wait_for_load", wait)]⟩
  | .pause secs => ⟨[("command", .str "pause"), ("seconds", .num secs)]⟩
  | .saveHTML f p =>
    ⟨[("command", .str "save_html"), ("filename", f), ("path", p)]⟩
  | .saveText tag _folder =>
    ⟨[("command", .str "save_text"),
      ("tag", match tag with | some t => .str t | none => .pynone)]⟩

/-- `PauseCommand.execute` against a context: returns the log lines
appended and the total seconds slept (`time.sleep` is only reached on the
positive branch). -/
def PauseCommand.executeRun (seconds : ℚ) : List String × ℚ :=
  if 0 < seconds then
    (["Pausing for " ++ toString seconds ++ " seconds...", "Pause complete"],
      seconds)
  else (["Pause duration is 0 seconds"], 0)

/-- Lexicographic code-point comparison on character lists, the order
Python's `sorted` uses on `str`. -/
def charsLt : List Char → List Char → Bool
  | [], [] => false
  | [], _ :: _ => true
  | _ :: _, [] => false
  | a :: as, b :: bs => if a < b then true else if b < a then false else charsLt as bs

/-- Python `a < b` on strings. -/
def strLt (a b : String) : Bool := charsLt a.data b.data

/-- Python `a <= b` on strings, as a proposition. -/
def strLe (a b : String) : Prop := strLt b a = false

instance : DecidableRel strLe := fun a b => instDecidableEqBool (strLt b a) false

/-- Python `sorted` on a list of strings (an insertion sort by `strLe`;
the registry's keys are unique, so stability is immaterial). -/
def pySorted (l : List String) : List String := List.insertionSort strLe l

/-- The four command classes of `qwsengine.scripting.commands`. -/
inductive CommandClass where
  | loadURLCls
  | pauseCls
  | saveHTMLCls
  | saveTextCls
deriving DecidableEq

/-- Dispatch `from_dict` on the class, as `command_class.from_dict(data)`
does.  Every class implements `from_dict`, so `CommandRegistry.register`'s
`hasattr(command_class, 'from_dict')` check always passes. -/
def CommandClass.from_dict : CommandClass → Record → Except String Command
  | .loadURLCls => LoadURLCommand.from_dict
  | .pauseCls => PauseCommand.from_dict
  | .saveHTMLCls => SaveHTMLCommand.from_dict
  | .saveTextCls => SaveTextCommand.from_dict

/-- `CommandRegistry._registry`: the mapping from kind name to command
class (a Python dict in insertion order, unique keys). -/
structure Registry where
  entries : List (String × CommandClass)
deriving DecidableEq

/-- Dict lookup `cls._registry.get(name)`. -/
def Registry.get (r : Registry) (name : String) : Option CommandClass :=
  (r.entries.find? (fun p => decide (p.1 = name))).map Prod.snd

/-- `CommandRegistry.is_registered`. -/
def Registry.is_registered (r : Registry) (name : String) : Bool :=
  (r.get name).isSome

/-- The kind names currently registered, in insertion order. -/
def Registry.keys (r : Registry) : List String := r.entries.map Prod.fst

/-- `CommandRegistry.register`: fails when the name is already present. -/
def Registry.register (r : Registry) (name : String) (cls : CommandClass) :
    Except String Registry :=
  if r.is_registered name then
    .error ("Command already registered: " ++ name)
  else .ok ⟨r.entries ++ [(name, cls)]⟩

/-- `CommandRegistry.unregister`: removes the entry when present, silently
does nothing otherwise. -/
def Registry.unregister (r : Registry) (name : String) : Registry :=
  ⟨r.entries.filter (fun p => !decide (p.1 = name))⟩

/-- `CommandRegistry.list_commands`: `sorted(list(cls._registry.keys()))`. -/
def Registry.list_commands (r : Registry) : List String := pySorted r.keys

/-- The message of the `ValueError` that `create_command` raises for an
unregistered name. -/
def unknown_command_msg (name : String) (r : Registry) : String :=
  "Unknown command: " ++ name ++ "\nAvailable commands: " ++
    String.intercalate ", " r.list_commands

/-- `CommandRegistry.create_command`. -/
def Registry.create_command (r : Registry) (name : String) (data : Record) :
    Except String Command :=
  match r.get name with
  | none => .error (unknown_command_msg name r)
  | some cls => cls.from_dict data

/-- The registry an empty process starts with. -/
def emptyRegistry : Registry := ⟨[]⟩

/-- The registration performed when the scripting package is imported:
`qwsengine/scripting/__init__.py` imports `.commands`, whose module body
registers exactly `save_html` and `save_text` (its other
`CommandRegistry.register` lines sit inside string literals).  The
`load_url` and `pause` classes are imported nowhere at package import, so
they are never registered. -/
def importCommandsRegistry : Except String Registry :=
  (emptyRegistry.register "save_html" .saveHTMLCls).bind
    (fun r => r.register "save_text" .saveTextCls)

/-- The registry value `importCommandsRegistry` produces. -/
def initialRegistry : Registry :=
  ⟨[("save_html", .saveHTMLCls), ("save_text", .saveTextCls)]⟩

/-- `SimpleScriptParser._split_command`: whitespace tokenization where `"`
toggles an in-quotes flag and is dropped from the token. -/
def splitCommandGo : List Char → List Char → Bool → List String
  | [], cur, _ => if cur.isEmpty then [] else [String.mk cur.reverse]
  | c :: cs, cur, inq =>
    if c = '"' then splitCommandGo cs cur (!inq)
    else if pyIsSpace c && !inq then
      if cur.isEmpty then splitCommandGo cs [] inq
      else String.mk cur.reverse :: splitCommandGo cs [] inq
    else splitCommandGo cs (c :: cur) inq

/-- `SimpleScriptParser._split_command` on a line. -/
def splitCommand (line : String) : List String :=
  splitCommandGo line.data [] false

/-- `SimpleScriptParser._parse_load`: `LOAD <URL> [nowait]`. -/
def SimpleScriptParser.parseLoad (parts : List String) : Except String Record :=
  match parts with
  | _ :: url :: rest =>
    let wait := !((rest.map pyLower).contains "nowait")
    .ok ⟨[("command", .str "load_url"), ("url", .str url),
      ("wait_for_load", .bool wait)]⟩
  | _ => .error "LOAD requires a URL"

/-- `SimpleScriptParser._parse_wait`: `WAIT <SECONDS>`. -/
def SimpleScriptParser.parseWait (parts : List String) : Except String Record :=
  match parts with
  | _ :: secStr :: _ =>
    match parsePyFloat secStr with
    | none => .error ("WAIT seconds must be a number, got: " ++ secStr)
    | some secs =>
      if secs < 0 then .error "WAIT seconds must be positive"
      else .ok ⟨[("command", .str "pause"), ("seconds", .num secs)]⟩
  | _ => .error "WAIT requires seconds"

/-- `SimpleScriptParser._parse_save`: `SAVE HTML|TEXT [TAG]`; `html` maps
to canonical kind `save_html` (the spec's `save_markup`) and `text` to
`save_text`; remaining tokens are joined with single spaces, one layer of
surrounding quotes is stripped, and a falsy tag is omitted. -/
def SimpleScriptParser.parseSave (parts : List String) : Except String Record :=
  match parts with
  | _ :: ty :: rest =>
    let save_type := pyLower ty
    if !(decide (save_type = "html") || decide (save_type = "text")) then
      .error ("SAVE type must be HTML or TEXT, got: " ++ save_type)
    else
      let tag : Option String :=
        match rest with
        | [] => none
        | _ :: _ =>
          let t := String.intercalate " " rest
          let quoted :=
            (match t.data.head? with | some c => decide (c = '"') | none => false) &&
            (match t.data.getLast? with | some c => decide (c = '"') | none => false)
          some (if quoted then String.mk (t.data.drop 1).dropLast else t)
      let command := if save_type = "html" then "save_html" else "save_text"
      let base : List (String × Value) := [("command", .str command)]
      .ok ⟨match tag with
        | some t => if t.data.isEmpty then base else base ++ [("tag", .str t)]
        | none => base⟩
  | _ => .error "SAVE requires HTML or TEXT type"

/-- `SimpleScriptParser._parse_line` on one comment-stripped, trimmed
line: `None` (no record) for a line that tokenizes to nothing, otherwise
dispatch on the lowered first token. -/
def SimpleScriptParser.parse_line (line : String) :
    Except String (Option Record) :=
  let parts := splitCommand line
  match parts with
  | [] => .ok none
  | p0 :: _ =>
    let cmd := pyLower p0
    if cmd = "load" then (SimpleScriptParser.parseLoad parts).map some
    else if cmd = "wait" then (SimpleScriptParser.parseWait parts).map some
    else if cmd = "save" then (SimpleScriptParser.parseSave parts).map some
    else .error ("Unknown command: " ++ cmd)

/-- The per-line loop of `SimpleScriptParser.parse`, numbering lines from
1: strip the textual `#`-comment, strip whitespace, skip blank lines,
collect parsed records and `"Line {n}: {reason}"` errors. -/
def SimpleScriptParser.collectLines : Nat → List String → List Record × List String
  | _, [] => ([], [])
  | n, line :: rest =>
    let l := pyStrip (String.mk (line.data.takeWhile (fun c => !decide (c = '#'))))
    let (cs, es) := SimpleScriptParser.collectLines (n + 1) rest
    if l.data.isEmpty then (cs, es)
    else
      match SimpleScriptParser.parse_line l with
      | .ok none => (cs, es)
      | .ok (some r) => (r :: cs, es)
      | .error e => (cs, ("Line " ++ toString n ++ ": " ++ e) :: es)

/-- The parse result: the `{'version': '1.0', 'commands': [...]}` dict. -/
structure Script where
  version : String
  commands : List Record
deriving DecidableEq

/-- `SimpleScriptParser.parse`: split the stripped text into lines,
collect records and line errors, and raise `ValueError` joining all the
errors if any exist — no partial command list escapes this path. -/
def SimpleScriptParser.parse (text : String) : Except String Script :=
  let lines := (charsSplit '\n' (pyStripChars text.data)).map String.mk
  let (cmds, errs) := SimpleScriptParser.collectLines 1 lines
  if errs.isEmpty then .ok ⟨"1.0", cmds⟩
  else .error (String.intercalate "\n" errs)

/-- The module-level convenience function `parse_simple_script`. -/
def parse_simple_script (text : String) : Except String Script :=
  SimpleScriptParser.parse text

/-- One command of a loaded script paired with the outcome its
`execute(context)` call produces in this run: `.ok ()` for success,
`.error msg` for the exception the executor's per-command `except` block
catches (`str(e)`).  The outcome is data because the collaborators that
decide it (browser window, filesystem, clock) are external to the core. -/
abbrev RunCmd := Command × Except String Unit

/-- The observable state of one `ScriptExecutor.execute` run. -/
structure RunResult where
  executed : List Nat
  errors : List (Nat × Command × String)
  success_count : Nat
  error_count : Nat
deriving DecidableEq

/-- The command loop of `ScriptExecutor.execute` from index `i`.  During a
single-threaded run with no reentrant control calls, `is_paused` stays
`False` and `is_running` stays `True`, so the pause checkpoint never blocks
and the stop checkpoint never fires; the remaining behavior is: on success
increment the success count, on failure append `(index, command, message)`
to the error list, increment the error count, and break iff
`stop_on_error`. -/
def ScriptExecutor.runFrom (stop_on_error : Bool) :
    Nat → List RunCmd → RunResult
  | _, [] => ⟨[], [], 0, 0⟩
  | i, (c, outcome) :: rest =>
    match outcome with
    | .ok _ =>
      let r := ScriptExecutor.runFrom stop_on_error (i + 1) rest
      ⟨i :: r.executed, r.errors, r.success_count + 1, r.error_count⟩
    | .error m =>
      if stop_on_error then ⟨[i], [(i, c, m)], 0, 1⟩
      else
        let r := ScriptExecutor.runFrom stop_on_error (i + 1) rest
        ⟨i :: r.executed, (i, c, m) :: r.errors, r.success_count,
          r.error_count + 1⟩

/-- `ScriptExecutor.execute`: reset the error list, run the loop from
index 0, and return `error_count == 0`.  Every per-command failure is a
value consumed by the loop, so `execute` is total — no command failure
escapes it. -/
def ScriptExecutor.execute (stop_on_error : Bool) (cmds : List RunCmd) :
    RunResult × Bool :=
  let r := ScriptExecutor.runFrom stop_on_error 0 cmds
  (r, r.error_count == 0)

/-- `ScriptExecutor.get_errors` after a run: a copy of the run-error
list. -/
def ScriptExecutor.get_errors (stop_on_error : Bool) (cmds : List RunCmd) :
    List (Nat × Command × String) :=
  (ScriptExecutor.execute stop_on_error cmds).1.errors

/-- The `try` body of `ScriptExecutor.load_from_json`'s loop for the
record at index `i`: a missing `command` key raises, then
`CommandRegistry.create_command` runs (a non-string kind cannot match any
registered string key, so it yields the unknown-command error). -/
def ScriptExecutor.loadStep (reg : Registry) (i : Nat) (d : Record) :
    Except String Command :=
  match Record.get d "command" with
  | none => .error ("Command " ++ toString i ++ " missing 'command' key")
  | some v =>
    match v with
    | .str name => reg.create_command name d
    | other => .error (unknown_command_msg other.pyStr reg)

/-- The loop of `ScriptExecutor.load_from_json` over the records
from index `i`: successfully created commands are collected in order, each
failure is appended to the load-error list as
`"Error loading command {i}: {e}"` and loading continues. -/
def ScriptExecutor.loadRecords (reg : Registry) :
    Nat → List Record → List Command × List String
  | _, [] => ([], [])
  | i, d :: rest =>
    let r := ScriptExecutor.loadRecords reg (i + 1) rest
    match ScriptExecutor.loadStep reg i d with
    | .ok c => (c :: r.1, r.2)
    | .error e =>
      (r.1, ("Error loading command " ++ toString i ++ ": " ++ e) :: r.2)

/-- `ScriptExecutor.load_from_json`: `ValueError` when the dict has no
`commands` key (modelled by the `Option`), otherwise the best-effort
per-record load — per-record failures are collected and never abort the
load. -/
def ScriptExecutor.load_from_json (reg : Registry)
    (json_commands : Option (List Record)) :
    Except String (List Command × List String) :=
  match json_commands with
  | none => .error "JSON must contain 'commands' key"
  | some cmds => .ok (ScriptExecutor.loadRecords reg 0 cmds)

/-- `pathlib.Path(filepath).name` for POSIX paths (final component after
dropping trailing slashes; no `.`/`..` resolution is exercised here). -/
def pathName (fp : String) : String :=
  let l := (fp.data.reverse.dropWhile (fun c => decide (c = '/'))).reverse
  String.mk ((charsSplit '/' l).getLastD [])

/-- `pathlib.Path(filepath).suffix`: the part of the name from its last
dot, empty when the dot is absent, leading, or trailing. -/
def pathSuffix (fp : String) : String :=
  let name := (pathName fp).data
  match name.reverse.findIdx? (fun c => decide (c = '.')) with
  | none => ""
  | some j =>
    let i := name.length - 1 - j
    if 0 < i ∧ i < name.length - 1 then String.mk (name.drop i) else ""

/-- `ScriptExecutor.load_from_file`, file contents already read:
dispatches on the lower-cased filename extension.  The `.json` branch
parses the text as JSON (`jsonLoad` models `json.load`; `.error` models
`json.JSONDecodeError`) and hands the dict to `load_from_json`, rewrapping
either error as the source's `except` clauses do.  Every other extension
executes `from .simple_parser import parse_simple_script`, which raises
`ImportError("simple_parser module not found")` — the repository's module
is named `simple_script_parser`, a module `simple_parser` does not exist,
and `ImportError` is caught by none of the `except` clauses — so the line
parser is never reached on this branch. -/
def ScriptExecutor.load_from_file (reg : Registry) (filepath : String)
    (text : String) (jsonLoad : String → Except String (Option (List Record))) :
    Except String (List Command × List String) :=
  let extension := pyLower (pathSuffix filepath)
  if extension = ".json" then
    match jsonLoad text with
    | .error e => .error ("Invalid JSON in " ++ filepath ++ ": " ++ e)
    | .ok data =>
      match ScriptExecutor.load_from_json reg data with
      | .error e =>
        .error ("Invalid script format in " ++ filepath ++ ": " ++ e)
      | .ok res => .ok res
  else .error "simple_parser module not found"

/-- The failing positions of an outcome list, with their commands and
messages, starting at index `i` — the reference value of the executor's
run-error list when no failure stops the loop. -/
def failuresFrom (i : Nat) : List RunCmd → List (Nat × Command × String)
  | [] => []
  | (_, .ok _) :: rest => failuresFrom (i + 1) rest
  | (c, .error m) :: rest => (i, c, m) :: failuresFrom (i + 1) rest

theorem runFrom_false_errors (i : Nat) (cmds : List RunCmd) :
    (ScriptExecutor.runFrom false i cmds).errors = failuresFrom i cmds := by
  induction cmds generalizing i with
  | nil => rfl
  | cons hd tl ih =>
    obtain ⟨c, outcome⟩ := hd
    cases outcome with
    | ok u => cases u; simp [ScriptExecutor.runFrom, failuresFrom, ih]
    | error m => simp [ScriptExecutor.runFrom, failuresFrom, ih]

theorem runFrom_false_executed (i : Nat) (cmds : List RunCmd) :
    (ScriptExecutor.runFrom false i cmds).executed = List.range' i cmds.length := by
  induction cmds generalizing i with
  | nil => rfl
  | cons hd tl ih =>
    obtain ⟨c, outcome⟩ := hd
    cases outcome with
    | ok u => cases u; simp [ScriptExecutor.runFrom, ih, List.range'_succ]
    | error m => simp [ScriptExecutor.runFrom, ih, List.range'_succ]

theorem runFrom_error_count_eq_length (stop : Bool) (i : Nat) (cmds : List RunCmd) :
    (ScriptExecutor.runFrom stop i cmds).error_count =
      (ScriptExecutor.runFrom stop i cmds).errors.length := by
  induction cmds generalizing i with
  | nil => rfl
  | cons hd tl ih =>
    obtain ⟨c, outcome⟩ := hd
    cases outcome with
    | ok u => cases u; simp [ScriptExecutor.runFrom, ih]
    | error m =>
      cases stop with
      | false => simp [ScriptExecutor.runFrom, ih]
      | true => simp [ScriptExecutor.runFrom]

theorem runFrom_true_halts (i : Nat) (pre : List RunCmd) (c : Command)
    (m : String) (post : List RunCmd) (h : ∀ x ∈ pre, x.2 = .ok ()) :
    ScriptExecutor.runFrom true i (pre ++ (c, .error m) :: post) =
      ⟨List.range' i (pre.length + 1), [(i + pre.length, c, m)], pre.length, 1⟩ := by
  induction pre generalizing i with
  | nil => simp [ScriptExecutor.runFrom, List.range'_succ]
  | cons hd tl ih =>
    obtain ⟨c0, o0⟩ := hd
    have h0 : o0 = .ok () := h (c0, o0) (List.mem_cons_self _ _)
    subst h0
    have ihh := ih (i + 1) (fun x hx => h x (List.mem_cons_of_mem _ hx))
    simp only [List.cons_append, ScriptExecutor.runFrom, ihh]
    have harith : i + 1 + tl.length = i + (tl.length + 1) := by omega
    simp [List.range'_succ, harith, ihh]

/-- Claim C1: when a command at some index fails during `execute`, the
executor appends `(index, command, message)` to the run-error list and
halts the loop iff `stop_on_error`; concretely, for a 3-command script
whose 2nd command fails, with `stop_on_error = false` all three commands
run, `execute` returns `false` and `get_errors` has exactly the entry for
index 1, while with `stop_on_error = true` only commands 0 and 1 run and
command 2 never executes. -/
theorem C1_execute_failure_bookkeeping :
    (∀ c0 c1 c2 : Command, ∀ m : String,
      ScriptExecutor.execute false [(c0, .ok ()), (c1, .error m), (c2, .ok ())] =
        (⟨[0, 1, 2], [(1, c1, m)], 2, 1⟩, false) ∧
      ScriptExecutor.get_errors false [(c0, .ok ()), (c1, .error m), (c2, .ok ())] =
        [(1, c1, m)] ∧
      ScriptExecutor.execute true [(c0, .ok ()), (c1, .error m), (c2, .ok ())] =
        (⟨[0, 1], [(1, c1, m)], 1, 1⟩, false)) ∧
    (∀ cmds : List RunCmd,
      (ScriptExecutor.execute false cmds).1.errors = failuresFrom 0 cmds ∧
      (ScriptExecutor.execute false cmds).1.executed =
        List.range' 0 cmds.length) ∧
    (∀ (pre : List RunCmd) (c : Command) (m : String) (post : List RunCmd),
      (∀ x ∈ pre, x.2 = .ok ()) →
      ScriptExecutor.execute true (pre ++ (c, .error m) :: post) =
        (⟨List.range' 0 (pre.length + 1), [(pre.length, c, m)],
          pre.length, 1⟩, false)) := by
  refine ⟨fun c0 c1 c2 m => ⟨rfl, rfl, rfl⟩, fun cmds => ?_, ?_⟩
  · exact ⟨runFrom_false_errors 0 cmds, runFrom_false_executed 0 cmds⟩
  · intro pre c m post h
    unfold ScriptExecutor.execute
    rw [runFrom_true_halts 0 pre c m post h]
    simp

theorem C1_execute_failure_bookkeeping_witness :
    ScriptExecutor.execute true
      [(Command.pause 1, Except.ok ()), (Command.pause 2, Except.error "boom"),
        (Command.pause 3, Except.ok ())] =
      (⟨[0, 1], [(1, Command.pause 2, "boom")], 1, 1⟩, false) :=
  C1_execute_failure_bookkeeping.2.2 [(Command.pause 1, Except.ok ())]
    (Command.pause 2) "boom" [(Command.pause 3, Except.ok ())] (by simp)

/-- Claim C7: for every loaded script (outcome list), `execute` returns
`true` iff the run-error list is empty at the end of the run; every
per-command failure is consumed as a recorded error (the returned flag is
`error_count == 0` and the error count equals the length of the error
list), with `execute` a total function — no command failure escapes it. -/
theorem C7_execute_true_iff_no_errors :
    ∀ (stop : Bool) (cmds : List RunCmd),
      ((ScriptExecutor.execute stop cmds).2 = true ↔
        (ScriptExecutor.execute stop cmds).1.errors = []) ∧
      (ScriptExecutor.execute stop cmds).1.error_count =
        (ScriptExecutor.execute stop cmds).1.errors.length := by
  intro stop cmds
  have hlen := runFrom_error_count_eq_length stop 0 cmds
  constructor
  · unfold ScriptExecutor.execute
    simp only [hlen]
    constructor
    · intro h
      have hz : (ScriptExecutor.runFrom stop 0 cmds).errors.length = 0 := by
        simpa using h
      exact List.length_eq_zero.mp hz
    · intro h
      simp [h]
  · exact hlen

/-- Claim C3: importing the scripting package runs only the two
`CommandRegistry.register` calls of `commands/__init__.py`, so the
process-wide registry holds exactly `save_html` and `save_text`; the
`load_url` and `pause` command classes exist and work (their `from_dict`
builds commands) but are never registered, and `create_command` with
either name fails with the unknown-command error. -/
theorem C3_import_registers_only_save_commands :
    importCommandsRegistry = .ok initialRegistry ∧
    initialRegistry.list_commands = ["save_html", "save_text"] ∧
    initialRegistry.get "load_url" = none ∧
    initialRegistry.get "pause" = none ∧
    initialRegistry.create_command "load_url"
        ⟨[("command", .str "load_url"), ("url", .str "https://a.example")]⟩ =
      .error "Unknown command: load_url\nAvailable commands: save_html, save_text" ∧
    initialRegistry.create_command "pause"
        ⟨[("command", .str "pause"), ("seconds", .num 1)]⟩ =
      .error "Unknown command: pause\nAvailable commands: save_html, save_text" ∧
    LoadURLCommand.from_dict
        ⟨[("command", .str "load_url"), ("url", .str "https://a.example")]⟩ =
      .ok (.loadURL (.str "https://a.example") (.bool true)) ∧
    PauseCommand.from_dict
        ⟨[("command", .str "pause"), ("seconds", .num 1)]⟩ = .ok (.pause 1) :=
  ⟨rfl, rfl, rfl, rfl, rfl, rfl, rfl, rfl⟩

/-- Claim C4: on the four lines `load https://a.example`, `wait 2`,
`SAVE HTML tag`, `SAVE TEXT "multi word"`, the line parser produces
exactly the four canonical records, in order.  The canonical kind strings
are the source's: `load_url` is the spec's `navigate` kind and `save_html`
the spec's `save_markup` kind (the spec names the same variants
abstractly); `wait_for_load` is `true` (no `nowait` token) and the quoted
multi-word tag survives tokenization as one token. -/
theorem C4_line_parser_four_lines :
    parse_simple_script
        "load https://a.example\nwait 2\nSAVE HTML tag\nSAVE TEXT \"multi word\"" =
      .ok ⟨"1.0",
        [⟨[("command", .str "load_url"), ("url", .str "https://a.example"),
            ("wait_for_load", .bool true)]⟩,
          ⟨[("command", .str "pause"), ("seconds", .num 2)]⟩,
          ⟨[("command", .str "save_html"), ("tag", .str "tag")]⟩,
          ⟨[("command", .str "save_text"), ("tag", .str "multi word")]⟩]⟩ := by
  rfl

/-- Claim C9: a pause record with `seconds = -1` fails validation (the
constructor's `ValueError` surfaces from `from_dict`), `seconds = 0`
succeeds, and executing the zero-second pause sleeps for 0 seconds and
emits only the single log line. -/
theorem C9_pause_validation_and_zero_noop :
    PauseCommand.from_dict
        ⟨[("command", .str "pause"), ("seconds", .num (-1))]⟩ =
      .error "Seconds must be non-negative" ∧
    PauseCommand.from_dict ⟨[("command", .str "pause"), ("seconds", .num 0)]⟩ =
      .ok (.pause 0) ∧
    PauseCommand.executeRun 0 = (["Pause duration is 0 seconds"], 0) :=
  ⟨rfl, rfl, rfl⟩

/-- Claim C10 (code bug): `load_from_file` does dispatch on the
lower-cased filename extension and the `.json` branch reaches the
structured loader, but every non-`.json` path fails with
`ImportError("simple_parser module not found")` — the source imports the
nonexistent module `simple_parser` (the repository's line parser lives in
`simple_script_parser`), and `ImportError` is caught by no `except`
clause — so the line parser is never reached from file loading. -/
theorem C10_file_dispatch_nonjson_import_error :
    (∀ (reg : Registry) (fp text : String)
      (j : String → Except String (Option (List Record))),
      pyLower (pathSuffix fp) ≠ ".json" →
      ScriptExecutor.load_from_file reg fp text j =
        .error "simple_parser module not found") ∧
    pathSuffix "script.txt" = ".txt" ∧
    pathSuffix "dir/test.JSON" = ".JSON" ∧
    ScriptExecutor.load_from_file initialRegistry "dir/test.JSON" "ignored"
        (fun _ => .ok (some [⟨[("command", .str "save_html")]⟩])) =
      .ok ([.saveHTML (.str "page.html") (.str ".")], []) := by
  refine ⟨?_, rfl, rfl, rfl⟩
  intro reg fp text j h
  simp [ScriptExecutor.load_from_file, h]

theorem C10_file_dispatch_nonjson_import_error_witness :
    ScriptExecutor.load_from_file initialRegistry "script.txt"
        "load https://a.example" (fun _ => .ok (some [])) =
      .error "simple_parser module not found" :=
  C10_file_dispatch_nonjson_import_error.1 initialRegistry "script.txt"
    "load https://a.example" (fun _ => .ok (some [])) (by decide)

theorem charsLt_asymm :
    ∀ a b : List Char, charsLt a b = true → charsLt b a = false := by
  intro a
  induction a with
  | nil => intro b h; cases b <;> rfl
  | cons a0 as ih =>
    intro b h
    cases b with
    | nil => simp [charsLt] at h
    | cons b0 bs =>
      simp only [charsLt] at h ⊢
      by_cases hab : a0 < b0
      · have hba : ¬ b0 < a0 := lt_asymm hab
        simp [hab, hba]
      · by_cases hba : b0 < a0
        · simp [hab, hba] at h
        · simp only [hab, hba, if_false] at h ⊢
          exact ih bs h

theorem charsLt_le_trans :
    ∀ a b c : List Char, charsLt b a = false → charsLt c b = false →
      charsLt c a = false := by
  intro a
  induction a with
  | nil =>
    intro b c _ _
    cases c <;> simp [charsLt]
  | cons a0 as ih =>
    intro b c h1 h2
    cases b with
    | nil => simp [charsLt] at h1
    | cons b0 bs =>
      cases c with
      | nil => simp [charsLt] at h2
      | cons c0 cs =>
        simp only [charsLt] at h1 h2 ⊢
        have hba : ¬ b0 < a0 := by
          intro hlt; simp [hlt] at h1
        have hcb : ¬ c0 < b0 := by
          intro hlt; simp [hlt] at h2
        have hca : ¬ c0 < a0 := fun hlt =>
          hcb (lt_of_lt_of_le hlt (not_lt.mp hba))
        by_cases hac : a0 < c0
        · simp [hca, hac]
        · have heq1 : a0 = b0 :=
            le_antisymm (not_lt.mp hba)
              (le_trans (not_lt.mp hcb) (not_lt.mp hac))
          subst heq1
          have heq2 : a0 = c0 := le_antisymm (not_lt.mp hcb) (not_lt.mp hac)
          subst heq2
          simp only [lt_irrefl, if_false] at h1 h2 ⊢
          exact ih bs cs h1 h2

instance : IsTotal String strLe :=
  ⟨fun a b => by
    by_cases h : strLt b a = true
    · exact Or.inr (charsLt_asymm b.data a.data h)
    · exact Or.inl (Bool.eq_false_iff.mpr h)⟩

instance : IsTrans String strLe :=
  ⟨fun a b c h1 h2 => charsLt_le_trans a.data b.data c.data h1 h2⟩

theorem find?_key_append_self (l : List (String × CommandClass))
    (name : String) (cls : CommandClass)
    (h : l.find? (fun p => decide (p.1 = name)) = none) :
    (l ++ [(name, cls)]).find? (fun p => decide (p.1 = name)) =
      some (name, cls) := by
  induction l with
  | nil => simp [List.find?]
  | cons hd tl ih =>
    cases hp : (decide (hd.1 = name)) with
    | true => simp [List.find?, hp] at h
    | false =>
      simp only [List.find?, hp] at h
      simpa [List.find?, hp] using ih h

/-- Claim C5: registering an already-present kind name fails on the
second `register` call, and `create_command` with an unregistered name
fails with a message embedding the comma-joined, sorted (`pySorted`, the
model of Python `sorted`) list of all registered kind names; `pySorted`'s
output is sorted under the string order and is a permutation of the
registry's key set. -/
theorem C5_registry_duplicate_and_unknown_create :
    (∀ (r r2 : Registry) (name : String) (cls cls2 : CommandClass),
      r.register name cls = .ok r2 →
      r2.register name cls2 =
        .error ("Command already registered: " ++ name)) ∧
    (∀ (r : Registry) (name : String) (data : Record),
      r.get name = none →
      r.create_command name data =
        .error ("Unknown command: " ++ name ++ "\nAvailable commands: " ++
          String.intercalate ", " (pySorted r.keys))) ∧
    (∀ r : Registry,
      r.list_commands.Sorted strLe ∧ r.list_commands.Perm r.keys) ∧
    initialRegistry.register "save_html" .saveHTMLCls =
      .error "Command already registered: save_html" ∧
    initialRegistry.create_command "wait" ⟨[]⟩ =
      .error "Unknown command: wait\nAvailable commands: save_html, save_text" := by
  refine ⟨?_, ?_, ?_, rfl, rfl⟩
  · intro r r2 name cls cls2 h
    unfold Registry.register at h ⊢
    by_cases hreg : r.is_registered name = true
    · simp [hreg] at h
    · simp only [hreg] at h
      simp only [Bool.false_eq_true, if_false] at h
      injection h with h2
      subst h2
      have hfind : r.entries.find? (fun p => decide (p.1 = name)) = none := by
        unfold Registry.is_registered Registry.get at hreg
        cases hf : r.entries.find? (fun p => decide (p.1 = name)) with
        | none => rfl
        | some p => simp [hf] at hreg
      have hr2 : Registry.is_registered ⟨r.entries ++ [(name, cls)]⟩ name = true := by
        unfold Registry.is_registered Registry.get
        simp [find?_key_append_self r.entries name cls hfind]
      simp [hr2]
  · intro r name data h
    unfold Registry.create_command
    rw [h]
    rfl
  · intro r
    exact ⟨List.sorted_insertionSort strLe r.keys,
      List.perm_insertionSort strLe r.keys⟩

theorem C5_registry_duplicate_and_unknown_create_witness :
    Registry.register ⟨[("save_html", .saveHTMLCls)]⟩ "save_html" .saveTextCls =
      .error "Command already registered: save_html" :=
  C5_registry_duplicate_and_unknown_create.1 emptyRegistry
    ⟨[("save_html", .saveHTMLCls)]⟩ "save_html" .saveHTMLCls .saveTextCls rfl

theorem loadRecords_total (reg : Registry) :
    ∀ (i : Nat) (recs : List Record),
      (ScriptExecutor.loadRecords reg i recs).1.length +
        (ScriptExecutor.loadRecords reg i recs).2.length = recs.length := by
  intro i recs
  induction recs generalizing i with
  | nil => rfl
  | cons d rest ih =>
    cases hstep : ScriptExecutor.loadStep reg i d with
    | ok c =>
      simp only [ScriptExecutor.loadRecords, hstep, List.length_cons]
      have := ih (i + 1)
      omega
    | error e =>
      simp only [ScriptExecutor.loadRecords, hstep, List.length_cons]
      have := ih (i + 1)
      omega

/-- Claim C6: the two syntaxes propagate parse errors differently, as the
sources do.  The structured loader never fails on a bad record: it always
returns a command list plus a load-error list, every record lands in
exactly one of the two (so the script is runnable minus the bad records);
concretely a 3-record load with an unknown middle kind yields 2 commands
and 1 collected error.  The line parser is atomic: whenever the per-line
scan has collected any error, `parse` returns the joined errors and no
record list; concretely one bad line fails a 2-line script whose first
line is valid. -/
theorem C6_parse_error_propagation_asymmetry :
    (∀ (reg : Registry) (recs : List Record),
      ScriptExecutor.load_from_json reg (some recs) =
        .ok (ScriptExecutor.loadRecords reg 0 recs)) ∧
    (∀ (reg : Registry) (i : Nat) (recs : List Record),
      (ScriptExecutor.loadRecords reg i recs).1.length +
        (ScriptExecutor.loadRecords reg i recs).2.length = recs.length) ∧
    ScriptExecutor.loadRecords initialRegistry 0
        [⟨[("command", .str "save_html")]⟩, ⟨[("command", .str "nope")]⟩,
          ⟨[("command", .str "save_text"), ("tag", .str "x")]⟩] =
      ([.saveHTML (.str "page.html") (.str "."), .saveText (some "x") .pynone],
        ["Error loading command 1: Unknown command: nope\nAvailable commands: save_html, save_text"]) ∧
    (∀ text : String,
      (SimpleScriptParser.collectLines 1
          ((charsSplit '\n' (pyStripChars text.data)).map String.mk)).2 ≠ [] →
      SimpleScriptParser.parse text =
        .error (String.intercalate "\n"
          (SimpleScriptParser.collectLines 1
            ((charsSplit '\n' (pyStripChars text.data)).map String.mk)).2)) ∧
    parse_simple_script "load https://a.example\nbogus 1" =
      .error "Line 2: Unknown command: bogus" := by
  refine ⟨fun reg recs => rfl, loadRecords_total, rfl, ?_, rfl⟩
  intro text herr
  unfold SimpleScriptParser.parse
  simp only [List.isEmpty_iff]
  rw [if_neg herr]

theorem C6_parse_error_propagation_asymmetry_witness :
    SimpleScriptParser.parse "load https://a.example\nbogus 1" =
      .error "Line 2: Unknown command: bogus" :=
  C6_parse_error_propagation_asymmetry.2.2.2.1
    "load https://a.example\nbogus 1" (by decide)

theorem mem_of_mem_dropWhile (f : Char → Bool) :
    ∀ (l : List Char) (c : Char), c ∈ l.dropWhile f → c ∈ l := by
  intro l
  induction l with
  | nil => intro c h; simp [List.dropWhile] at h
  | cons a t ih =>
    intro c h
    rw [List.dropWhile_cons] at h
    by_cases ha : f a = true
    · simp only [ha, if_true] at h
      exact List.mem_cons_of_mem a (ih c h)
    · simp only [ha, if_false] at h
      exact h

theorem head?_dropWhile_false (f : Char → Bool) :
    ∀ (l : List Char) (c : Char), (l.dropWhile f).head? = some c → f c = false := by
  intro l
  induction l with
  | nil => intro c h; simp [List.dropWhile] at h
  | cons a t ih =>
    intro c h
    cases ha : f a with
    | true =>
      simp only [List.dropWhile_cons, ha, if_true] at h
      exact ih c h
    | false =>
      simp only [List.dropWhile_cons, ha, Bool.false_eq_true, if_false,
        List.head?_cons, Option.some_inj] at h
      subst h
      exact ha

theorem getLast?_dropWhile (f : Char → Bool) :
    ∀ l : List Char, l.dropWhile f ≠ [] →
      (l.dropWhile f).getLast? = l.getLast? := by
  intro l
  induction l with
  | nil => intro h; simp [List.dropWhile] at h
  | cons a t ih =>
    intro h
    rw [List.dropWhile_cons] at h ⊢
    by_cases ha : f a = true
    · simp only [ha, if_true] at h ⊢
      have ht : t ≠ [] := by
        intro he; subst he; simp [List.dropWhile] at h
      rw [ih h, List.getLast?_cons]
      cases hgt : t.getLast? with
      | none => exact absurd (List.getLast?_eq_none_iff.mp hgt) ht
      | some x => rfl
    · simp [ha]

theorem dropWhile_eq_self_of_head (f : Char → Bool) (l : List Char)
    (h : ∀ c, l.head? = some c → f c = false) : l.dropWhile f = l := by
  cases l with
  | nil => rfl
  | cons a t =>
    rw [List.dropWhile_cons, h a rfl]
    simp

theorem dropWhile_eq_self_of_forall (f : Char → Bool) :
    ∀ l : List Char, (∀ c ∈ l, f c = false) → l.dropWhile f = l := by
  intro l
  induction l with
  | nil => intro _; rfl
  | cons a t ih =>
    intro h
    rw [List.dropWhile_cons, h a (List.mem_cons_self a t)]
    simp

theorem map_eq_self_of_forall (f : Char → Char) :
    ∀ l : List Char, (∀ c ∈ l, f c = c) → l.map f = l := by
  intro l
  induction l with
  | nil => intro _; rfl
  | cons a t ih =>
    intro h
    rw [List.map_cons, h a (List.mem_cons_self a t),
      ih (fun c hc => h c (List.mem_cons_of_mem a hc))]

theorem mem_of_mem_stripCharBoth (q : Char → Bool) (l : List Char) (c : Char)
    (h : c ∈ stripCharBoth q l) : c ∈ l := by
  unfold stripCharBoth at h
  rw [List.mem_reverse] at h
  have h2 := mem_of_mem_dropWhile q _ c h
  rw [List.mem_reverse] at h2
  exact mem_of_mem_dropWhile q l c h2

theorem getLast?_stripCharBoth_false (q : Char → Bool) (l : List Char) (c : Char)
    (h : (stripCharBoth q l).getLast? = some c) : q c = false := by
  unfold stripCharBoth at h
  rw [List.getLast?_reverse] at h
  exact head?_dropWhile_false q _ c h

theorem head?_stripCharBoth_false (q : Char → Bool) (l : List Char) (c : Char)
    (h : (stripCharBoth q l).head? = some c) : q c = false := by
  unfold stripCharBoth at h
  rw [List.head?_reverse] at h
  have hne : (l.dropWhile q).reverse.dropWhile q ≠ [] := by
    intro he; rw [he] at h; simp at h
  rw [getLast?_dropWhile q _ hne, List.getLast?_reverse] at h
  exact head?_dropWhile_false q l c h

theorem stripCharBoth_idem (q : Char → Bool) (l : List Char) :
    stripCharBoth q (stripCharBoth q l) = stripCharBoth q l := by
  have h1 : (stripCharBoth q l).dropWhile q = stripCharBoth q l :=
    dropWhile_eq_self_of_head q _ (fun c hc => head?_stripCharBoth_false q l c hc)
  have h2 : (stripCharBoth q l).reverse.dropWhile q = (stripCharBoth q l).reverse := by
    refine dropWhile_eq_self_of_head q _ (fun c hc => ?_)
    rw [List.head?_reverse] at hc
    exact getLast?_stripCharBoth_false q l c hc
  show ((((stripCharBoth q l).dropWhile q).reverse.dropWhile q).reverse) = _
  rw [h1, h2, List.reverse_reverse]

theorem tagKeep_not_space (c : Char) (h : tagKeep c = true) :
    pyIsSpace c = false := by
  cases hw : pyIsSpace c with
  | false => rfl
  | true =>
    exfalso
    unfold pyIsSpace at hw
    simp only [Char.isWhitespace, Bool.or_eq_true, decide_eq_true_eq] at hw
    rcases hw with ((hc | hc) | hc) | hc <;> subst hc <;> exact absurd h (by decide)

theorem tagKeep_not_blank (c : Char) (h : tagKeep c = true) : c ≠ ' ' := by
  intro hc
  subst hc
  exact absurd h (by decide)

theorem sanitizeChars_mem (l : List Char) (c : Char)
    (h : c ∈ sanitizeChars l) : tagKeep c = true := by
  unfold sanitizeChars at h
  have h2 := mem_of_mem_stripCharBoth _ _ c h
  exact (List.mem_filter.mp h2).2

theorem sanitizeChars_idem (l : List Char) :
    sanitizeChars (sanitizeChars l) = sanitizeChars l := by
  have hmem : ∀ c ∈ sanitizeChars l, tagKeep c = true := sanitizeChars_mem l
  have hstrip : pyStripChars (sanitizeChars l) = sanitizeChars l := by
    unfold pyStripChars
    rw [dropWhile_eq_self_of_forall pyIsSpace _
      (fun c hc => tagKeep_not_space c (hmem c hc))]
    rw [dropWhile_eq_self_of_forall pyIsSpace _
      (fun c hc => tagKeep_not_space c (hmem c (List.mem_reverse.mp hc)))]
    exact List.reverse_reverse _
  have hmap : (sanitizeChars l).map (fun c => if c = ' ' then '_' else c) =
      sanitizeChars l := by
    refine map_eq_self_of_forall _ _ (fun c hc => ?_)
    rw [if_neg (tagKeep_not_blank c (hmem c hc))]
  have hfilter : (sanitizeChars l).filter tagKeep = sanitizeChars l :=
    List.filter_eq_self.mpr hmem
  show stripCharBoth _ (((pyStripChars (sanitizeChars l)).map _).filter _) = _
  rw [hstrip, hmap, hfilter]
  exact stripCharBoth_idem _ _

theorem sanitize_tag_fixed (s t : String)
    (h : SaveTextCommand.sanitize_tag s = some t) :
    SaveTextCommand.sanitize_tag t = some t ∧ t.data ≠ [] := by
  unfold SaveTextCommand.sanitize_tag at h
  by_cases he : s.data.isEmpty = true
  · simp [he] at h
  · simp only [he, Bool.false_eq_true, if_false] at h
    by_cases hm : (sanitizeChars s.data).isEmpty = true
    · simp [hm] at h
    · simp only [hm, Bool.false_eq_true, if_false, Option.some_inj] at h
      subst h
      have hdata : (String.mk (sanitizeChars s.data)).data = sanitizeChars s.data := rfl
      have hne : sanitizeChars s.data ≠ [] := by
        intro hx
        rw [hx] at hm
        exact hm rfl
      constructor
      · unfold SaveTextCommand.sanitize_tag
        rw [hdata]
        rw [if_neg (by simpa [List.isEmpty_iff] using hne)]
        simp only [sanitizeChars_idem]
        rw [if_neg (by simpa [List.isEmpty_iff] using hne)]
      · rw [hdata]
        exact hne

/-- Claim C8: for every input string, `_sanitize_tag` yields either
"absent" (`none`: empty input or empty after sanitization) or a nonempty
tag all of whose characters are alphanumeric or underscore (so whitespace
is gone and every surviving interior space became an underscore) with no
leading or trailing underscore; concrete instances exercise each clause
(trimming, space replacement, dropping, underscore trimming,
empty-after-sanitization).  `_generate_filename` produces exactly
`{timestamp}.{milliseconds:03d}[_{tag}].txt`. -/
theorem C8_tag_sanitization_and_filename_shape :
    (∀ s t : String, SaveTextCommand.sanitize_tag s = some t →
      t.data ≠ [] ∧
      (∀ c ∈ t.data, tagKeep c = true) ∧
      (∀ c, t.data.head? = some c → c ≠ '_') ∧
      (∀ c, t.data.getLast? = some c → c ≠ '_')) ∧
    SaveTextCommand.sanitize_tag "  multi word  " = some "multi_word" ∧
    SaveTextCommand.sanitize_tag "a-b!c" = some "abc" ∧
    SaveTextCommand.sanitize_tag "__tag__" = some "tag" ∧
    SaveTextCommand.sanitize_tag "!!!" = none ∧
    SaveTextCommand.sanitize_tag "" = none ∧
    (∀ (ts : String) (ms : Nat) (t : String), t.data ≠ [] →
      SaveTextCommand.generate_filename ts ms (some t) =
        ts ++ "." ++ pad3 ms ++ "_" ++ t ++ ".txt") ∧
    (∀ (ts : String) (ms : Nat),
      SaveTextCommand.generate_filename ts ms none =
        ts ++ "." ++ pad3 ms ++ ".txt") ∧
    SaveTextCommand.generate_filename "20251222185623" 456 (some "results") =
      "20251222185623.456_results.txt" ∧
    SaveTextCommand.generate_filename "20251222185623" 7 none =
      "20251222185623.007.txt" := by
  refine ⟨?_, rfl, rfl, rfl, rfl, rfl, ?_, fun ts ms => rfl, rfl, rfl⟩
  · intro s t h
    obtain ⟨hfix, hne⟩ := sanitize_tag_fixed s t h
    have hform : t.data = sanitizeChars s.data := by
      unfold SaveTextCommand.sanitize_tag at h
      by_cases he : s.data.isEmpty = true
      · simp [he] at h
      · simp only [he, Bool.false_eq_true, if_false] at h
        by_cases hm : (sanitizeChars s.data).isEmpty = true
        · simp [hm] at h
        · simp only [hm, Bool.false_eq_true, if_false, Option.some_inj] at h
          subst h
          rfl
    refine ⟨hne, ?_, ?_, ?_⟩
    · intro c hc
      rw [hform] at hc
      exact sanitizeChars_mem s.data c hc
    · intro c hc hu
      rw [hform] at hc
      have := head?_stripCharBoth_false _ _ c hc
      subst hu
      simp at this
    · intro c hc hu
      rw [hform] at hc
      have := getLast?_stripCharBoth_false _ _ c hc
      subst hu
      simp at this
  · intro ts ms t ht
    simp only [SaveTextCommand.generate_filename]
    rw [if_neg (by simpa [List.isEmpty_iff] using ht)]

theorem C8_tag_sanitization_and_filename_shape_witness :
    "multi_word".data ≠ [] ∧
    SaveTextCommand.generate_filename "20251222185623" 456 (some "multi_word") =
      "20251222185623" ++ "." ++ pad3 456 ++ "_" ++ "multi_word" ++ ".txt" :=
  ⟨(C8_tag_sanitization_and_filename_shape.1 "  multi word  " "multi_word" rfl).1,
    C8_tag_sanitization_and_filename_shape.2.2.2.2.2.2.1 "20251222185623" 456
      "multi_word" (by decide)⟩

/-- Claim C2 counterexample: a save_text command constructed from a valid
record with an explicit folder does not survive serialize→deserialize —
`to_dict` drops the folder, so the round-tripped command carries folder
`None` and resolves its output folder to the default instead of the stored
`/data`: the round-tripped command is not operationally equivalent. -/
theorem C2_roundtrip_folder_counterexample :
    SaveTextCommand.from_dict
        ⟨[("command", .str "save_text"), ("tag", .str "x"),
          ("folder", .str "/data")]⟩ =
      .ok (.saveText (some "x") (.str "/data")) ∧
    Command.to_dict (.saveText (some "x") (.str "/data")) =
      ⟨[("command", .str "save_text"), ("tag", .str "x")]⟩ ∧
    SaveTextCommand.from_dict
        (Command.to_dict (.saveText (some "x") (.str "/data"))) =
      .ok (.saveText (some "x") .pynone) ∧
    Command.saveText (some "x") Value.pynone ≠
      Command.saveText (some "x") (.str "/data") ∧
    SaveTextCommand.resolveFolder (.str "/data") false (fun _ d => d) ≠
      SaveTextCommand.resolveFolder Value.pynone false (fun _ d => d) :=
  ⟨rfl, rfl, rfl, by decide, by decide⟩

/-- Claim C2 (amended): serialize→deserialize reproduces an operationally
equivalent command for every constructible navigate, pause and save_markup
command, and for save_text commands the round trip preserves the tag but
always yields folder `None` (equivalent exactly when the folder was
unset).  The navigate-record half holds as stated: `from_dict` then
`to_dict` on a valid navigate record reproduces the record with
`wait_for_load` defaulted to `true` when absent. -/
theorem C2_roundtrip_amended :
    (∀ u w : Value, u.truthy = true →
      LoadURLCommand.from_dict (Command.to_dict (.loadURL u w)) =
        .ok (.loadURL u w)) ∧
    (∀ q : ℚ, ¬q < 0 →
      PauseCommand.from_dict (Command.to_dict (.pause q)) = .ok (.pause q)) ∧
    (∀ f p : Value, f.truthy = true → p.truthy = true →
      SaveHTMLCommand.from_dict (Command.to_dict (.saveHTML f p)) =
        .ok (.saveHTML f p)) ∧
    (∀ (d : Record) (t : Option String) (fol : Value),
      SaveTextCommand.from_dict d = .ok (.saveText t fol) →
      SaveTextCommand.from_dict (Command.to_dict (.saveText t fol)) =
        .ok (.saveText t .pynone)) ∧
    (∀ (r : Record) (s : String), r.get "url" = some (.str s) → s ≠ "" →
      (r.get "wait_for_load" = none →
        (LoadURLCommand.from_dict r).map Command.to_dict =
          .ok ⟨[("command", .str "load_url"), ("url", .str s),
            ("wait_for_load", .bool true)]⟩) ∧
      (∀ b : Bool, r.get "wait_for_load" = some (.bool b) →
        (LoadURLCommand.from_dict r).map Command.to_dict =
          .ok ⟨[("command", .str "load_url"), ("url", .str s),
            ("wait_for_load", .bool b)]⟩)) := by
  refine ⟨?_, ?_, ?_, ?_, ?_⟩
  · intro u w h
    simp [LoadURLCommand.from_dict, Command.to_dict, Record.pyGet,
      Record.getD, Record.get, List.find?, h]
  · intro q h
    simp [PauseCommand.from_dict, Command.to_dict, Record.get, List.find?,
      pyFloatV, h]
  · intro f p hf hp
    simp [SaveHTMLCommand.from_dict, Command.to_dict, Record.getD,
      Record.get, List.find?, hf, hp]
  · intro d t fol h
    unfold SaveTextCommand.from_dict at h
    by_cases htr : (d.pyGet "tag").truthy = true
    · rw [if_pos htr] at h
      cases hv : d.pyGet "tag" with
      | str s =>
        rw [hv] at h
        simp only [] at h
        injection h with h2
        injection h2 with ht hf
        subst ht
        cases hst : SaveTextCommand.sanitize_tag s with
        | none => rfl
        | some u =>
          obtain ⟨hfix, hne⟩ := sanitize_tag_fixed s u hst
          have hie : u.data.isEmpty = false := by
            simpa [List.isEmpty_iff] using hne
          simp [SaveTextCommand.from_dict, Command.to_dict, Record.pyGet,
            Record.get, List.find?, Value.truthy, hie, hfix]
      | num q => rw [hv] at h; exact absurd h (by simp)
      | bool b => rw [hv] at h; exact absurd h (by simp)
      | pynone => rw [hv] at h; exact absurd h (by simp)
    · rw [if_neg htr] at h
      injection h with h2
      injection h2 with ht hf
      subst ht
      rfl
  · intro r s hurl hs
    have hsd : s.data.isEmpty = false := by
      cases s with
      | mk d =>
        cases d with
        | nil => exact absurd rfl hs
        | cons a t => rfl
    constructor
    · intro hw
      simp [LoadURLCommand.from_dict, Record.pyGet, Record.getD, hurl, hw,
        Value.truthy, hsd, Command.to_dict, Except.map]
    · intro b hw
      simp [LoadURLCommand.from_dict, Record.pyGet, Record.getD, hurl, hw,
        Value.truthy, hsd, Command.to_dict, Except.map]

theorem C2_roundtrip_amended_witness :
    (LoadURLCommand.from_dict
        ⟨[("command", .str "load_url"),
          ("url", .str "https://a.example")]⟩).map Command.to_dict =
      .ok ⟨[("command", .str "load_url"), ("url", .str "https://a.example"),
        ("wait_for_load", .bool true)]⟩ :=
  (C2_roundtrip_amended.2.2.2.2
    ⟨[("command", .str "load_url"), ("url", .str "https://a.example")]⟩
    "https://a.example" rfl (by decide)).1 rfl

end Qwse
